import Mathlib

/-!
Shallow embedding of `workloads.py` from the GKEndpoints repository, together
with proofs checking the natural-language specification against it.

Conventions of the embedding:
* Python dicts are modelled as insertion-ordered association lists
  (`List (key × value)`), matching CPython's guaranteed insertion order.
  `d.setdefault(k, dflt)` followed by in-place mutation of the returned value
  is `dictModify`, plain assignment `d[k] = v` is `dictSet`.
* Python exceptions are values: `PyExc` records the exception type, its
  message, and its implicit context chain (`__context__`, PEP 3134): when an
  exception is raised while another one is being handled, the handled
  exception is attached as context.
* Fallible Python code returns `Except PyExc _`.
* Calls into external services (GKE control plane, Kubernetes API server)
  are modelled by environment records that carry the outcome of each call.
-/

/-- Python exception classes that occur in `workloads.py`:
`requests.exceptions.ConnectTimeout`, `kubernetes.client.exceptions.ApiException`,
`ValueError`, `KeyError`, `NameError`, and bare `Exception`. -/
inductive PyExcType : Type where
  | connectTimeout
  | apiException
  | valueError
  | keyError
  | nameError
  | genericException
deriving DecidableEq, Repr

/-- The type and message of one Python exception, without its chain. -/
structure PyExcData : Type where
  ty : PyExcType
  msg : String
deriving DecidableEq, Repr

/-- A raised Python exception: its own data plus the flattened implicit
context chain (`__context__`, nearest first).  A freshly constructed
exception has an empty chain. -/
structure PyExc : Type where
  data : PyExcData
  contextChain : List PyExcData
deriving DecidableEq, Repr

/-- Implicit exception chaining (PEP 3134): an exception raised while `ctx`
is being handled gets `ctx` as its `__context__`, provided its context is
not already set. -/
def withContext (e ctx : PyExc) : PyExc :=
  if e.contextChain.isEmpty then
    { e with contextChain := ctx.data :: ctx.contextChain }
  else e

/- ### Python dicts as insertion-ordered association lists -/

/-- `k in d` lookup: first binding of `k`, if any.  (Keys built by the
functions below are never duplicated, so "first" is exact.) -/
def dictLookup {α β : Type} [DecidableEq α] (k : α) : List (α × β) → Option β
  | [] => none
  | (a, b) :: rest => if a = k then some b else dictLookup k rest

/-- Python `d[k] = v`: replace the value at `k` in place if `k` is bound,
otherwise append the new binding at the end (insertion order). -/
def dictSet {α β : Type} [DecidableEq α] (k : α) (v : β) : List (α × β) → List (α × β)
  | [] => [(k, v)]
  | (a, b) :: rest => if a = k then (a, v) :: rest else (a, b) :: dictSet k v rest

/-- Python `d.setdefault(k, dflt)` followed by in-place mutation `f` of the
returned inner value: apply `f` to the value bound at `k` (position kept),
or append `(k, f dflt)` if `k` is unbound. -/
def dictModify {α β : Type} [DecidableEq α] (k : α) (dflt : β) (f : β → β) :
    List (α × β) → List (α × β)
  | [] => [(k, f dflt)]
  | (a, b) :: rest => if a = k then (a, f b) :: rest else (a, b) :: dictModify k dflt f rest

/-- Python dict equality (`==`) for string-keyed dicts with unique keys:
same cardinality and every binding of the left dict holds in the right. -/
def pyDictBeq (d1 d2 : List (String × String)) : Bool :=
  d1.length == d2.length && d1.all (fun kv => dictLookup kv.1 d2 == some kv.2)

/- ### Python value-rendering helpers -/

/-- `x or []` for a possibly-`None` list (`None` and `[]` are both falsy and
both yield `[]`). -/
def pyOrList {α : Type} : Option (List α) → List α
  | none => []
  | some l => l

/-- `s or dflt` for a possibly-`None` string: `None` and `""` are falsy. -/
def pyOrStr (s : Option String) (dflt : String) : String :=
  match s with
  | none => dflt
  | some v => if v = "" then dflt else v

/-- Rendering a possibly-`None` string inside an f-string: `None` renders
as `"None"`. -/
def pyStrOfOpt : Option String → String
  | none => "None"
  | some s => s

/-- Python `str(x)` for a possibly-`None` integer: `str(None) = "None"`. -/
def pyStrOfOptNat : Option Nat → String
  | none => "None"
  | some n => toString n

/-- Python `not x` for a possibly-`None` string (`None` and `""` are falsy). -/
def pyFalsyStr : Option String → Bool
  | none => true
  | some s => s == ""

/-- `needle` occurs as a contiguous sublist of `hay`. -/
def charsContain (needle : List Char) : List Char → Bool
  | [] => needle.isEmpty
  | c :: rest => needle.isPrefixOf (c :: rest) || charsContain needle rest

/-- Python `needle in hay` substring test. -/
def pyInStr (needle hay : String) : Bool :=
  charsContain needle.data hay.data

/-- Python `s.lower()` (the values compared in the source are ASCII). -/
def pyLower (s : String) : String :=
  ⟨s.data.map Char.toLower⟩

/- ### Module-level configuration constants of `workloads.py` -/

def PROJECT_ID : String := "your-project-id"

def CLUSTER_NAME : String := "your-cluster-name"

/- ### `init_k8s_client`: private-first / public-fallback negotiation -/

/-- Which control-plane endpoint a connection attempt targets. -/
inductive EndpointKind : Type where
  | privateEp
  | publicEp
deriving DecidableEq, Repr

/-- The value returned by `init_k8s_client` on success: the pair
`(networking_v1, core_v1)` of API clients, abstracted to the endpoint kind
whose configuration they were built from. -/
structure Session : Type where
  endpoint : EndpointKind
deriving DecidableEq, Repr

/-- Outcomes of the external calls made during one run of
`init_k8s_client`: `get_cluster_credentials(use_private_endpoint=True)`,
the private probe `core_v1.list_namespace()`, and the same pair for the
public endpoint.  Each entry is the result the environment produces if and
when that call is made. -/
structure ClusterEnv : Type where
  getCredsPrivate : Except PyExc Unit
  probePrivate : Except PyExc Unit
  getCredsPublic : Except PyExc Unit
  probePublic : Except PyExc Unit

/-- The body of one `try` block of `init_k8s_client`: obtain credentials,
build the clients (pure), then probe with `list_namespace()`. -/
def attemptEndpoint (creds probe : Except PyExc Unit) : Except PyExc Unit :=
  match creds with
  | .error e => .error e
  | .ok _ => probe

/-- The exception classes caught by both `except` clauses of
`init_k8s_client`: `(requests.exceptions.ConnectTimeout,
client.exceptions.ApiException)`. -/
def fallbackCaught (e : PyExc) : Bool :=
  match e.data.ty with
  | .connectTimeout => true
  | .apiException => true
  | _ => false

/-- Message of the exception raised when both endpoints fail. -/
def exhaustedMsg : String := "Failed to connect using both public and private endpoints"

/-- `init_k8s_client(*, use_private_endpoint)`.  Returns the ordered list of
endpoint connection attempts actually made (one entry per `try` block
entered) together with the result.  Note that the body never reads the
`use_private_endpoint` keyword argument: both calls to
`get_cluster_credentials` pass a literal (`True` then `False`). -/
def init_k8s_client (use_private_endpoint : Bool) (env : ClusterEnv) :
    List EndpointKind × Except PyExc Session :=
  -- Try private
  match attemptEndpoint env.getCredsPrivate env.probePrivate with
  | .ok _ => ([.privateEp], .ok ⟨.privateEp⟩)
  | .error e =>
    if fallbackCaught e then
      -- Try public (inside the handler of `e`, so anything raised here
      -- implicitly chains `e` as its context)
      match attemptEndpoint env.getCredsPublic env.probePublic with
      | .ok _ => ([.privateEp, .publicEp], .ok ⟨.publicEp⟩)
      | .error e2 =>
        let e2c := withContext e2 e
        if fallbackCaught e2c then
          -- raise Exception("Failed to connect using both public and private endpoints")
          ([.privateEp, .publicEp],
            .error (withContext ⟨⟨.genericException, exhaustedMsg⟩, []⟩ e2c))
        else
          ([.privateEp, .publicEp], .error e2c)
    else
      ([.privateEp], .error e)

/- ### Kubernetes resource model used by the walkers -/

/-- One entry of `ingress.spec.rules[i].http.paths`: the rendered route
needs `path.path` (possibly `None`), and the backend needs
`path.backend.service.name` and `path.backend.service.port.number`. -/
structure IngressPath : Type where
  path : Option String
  serviceName : String
  portNumber : Option Nat
deriving DecidableEq, Repr

/-- One entry of `ingress.spec.rules`: `rule.host` (possibly `None`) and
`rule.http.paths` (possibly `None`, read as `rule.http.paths or []`). -/
structure IngressRule : Type where
  host : Option String
  paths : Option (List IngressPath)
deriving DecidableEq, Repr

/-- One Ingress object: `metadata.name`, `metadata.annotations` (possibly
`None`) and `spec.rules` (possibly `None`, read as `... or []`). -/
structure Ingress : Type where
  name : String
  annotations : Option (List (String × String))
  rules : Option (List IngressRule)
deriving DecidableEq, Repr

/-- The leaf value stored by `list_ingresses` under one `rule_count` key. -/
structure IngressDetails : Type where
  route : String
  service : String
  port : String
  ingress_class : Option String
deriving DecidableEq, Repr

/-- The nested mapping built by `list_ingresses`:
project → cluster → namespace → ingress name → rule_count → details. -/
abbrev IngressMap : Type :=
  List (String × List (String × List (String × List (String × List (Nat × IngressDetails)))))

/-- The composite key addressing one leaf of an `IngressMap`. -/
structure IngressKey : Type where
  project : String
  cluster : String
  namespaceName : String
  resource : String
  ruleIndex : Nat
deriving DecidableEq, Repr

/-- The chained `setdefault` insertion of `list_ingresses` (lines 162-171):
four `setdefault(…, {})` levels followed by the plain assignment
`[rule_count] = {...}` at the leaf. -/
def insertIngressLeaf (m : IngressMap) (k : IngressKey) (det : IngressDetails) : IngressMap :=
  dictModify k.project [] (fun clusters =>
    dictModify k.cluster [] (fun nspaces =>
      dictModify k.namespaceName [] (fun ings =>
        dictModify k.resource [] (fun rules =>
          dictSet k.ruleIndex det rules) ings) nspaces) clusters) m

/-- Composite lookup of one leaf of an `IngressMap`. -/
def lookupLeaf (m : IngressMap) (k : IngressKey) : Option IngressDetails :=
  dictLookup k.ruleIndex
    (((dictLookup k.resource
      (((dictLookup k.namespaceName
        (((dictLookup k.cluster
          (((dictLookup k.project m).getD []))).getD []))).getD []))).getD []))

/-- The annotation key consulted for the ingress class. -/
def ingressClassKey : String := "kubernetes.io/ingress.class"

/-- `ingress_class` resolution of `list_ingresses` (lines 148-151):
`None` unless the annotations dict is present and contains the key. -/
def ingressClassOf (ing : Ingress) : Option String :=
  match ing.annotations with
  | none => none
  | some a => dictLookup ingressClassKey a

/-- The leaf dict assigned by `list_ingresses` for one (rule, path). -/
def ingressPathDetails (ingress_class : Option String) (rule : IngressRule)
    (path : IngressPath) : IngressDetails :=
  { route := pyStrOfOpt rule.host ++ (match path.path with
      | none => "/"
      | some p => if p = "" then "/" else p)
    service := path.serviceName
    port := pyStrOfOptNat path.portNumber
    ingress_class := ingress_class }

/-- The body of `for ingress in ingresses` in `list_ingresses`
(lines 144-172): resolve the class annotation, then walk
`ingress.spec.rules or []` and each rule's `rule.http.paths or []`,
inserting one leaf per path while incrementing `rule_count`. -/
def processIngress (nspace : String) (m : IngressMap) (ing : Ingress) : IngressMap :=
  let ingress_class := ingressClassOf ing
  ((pyOrList ing.rules).foldl (fun (acc : IngressMap × Nat) rule =>
    (pyOrList rule.paths).foldl (fun (acc2 : IngressMap × Nat) path =>
      (insertIngressLeaf acc2.1
        ⟨PROJECT_ID, CLUSTER_NAME, nspace, ing.name, acc2.2⟩
        (ingressPathDetails ingress_class rule path), acc2.2 + 1)) acc)
    (m, 0)).1

/-- The header schema returned by `list_ingresses`. -/
def ingressHeaders : List String :=
  ["PROJECT_ID", "CLUSTER_NAME", "namespace", "ingress_name", "rule_count",
   "route", "service", "port", "ingress_class"]

/-- Environment for one namespace seen by `list_ingresses`: the namespace
name and the outcome of `netApi.list_namespaced_ingress(namespace=...)`. -/
structure IngressNamespace : Type where
  name : String
  ingressesResult : Except PyExc (List Ingress)

/-- The namespace loop of `list_ingresses` (lines 134-172).  The listing
call is not wrapped in any `try`, so a listing failure propagates and
aborts the walk. -/
def listIngressesLoop (m : IngressMap) : List IngressNamespace → Except PyExc IngressMap
  | [] => .ok m
  | ns :: rest =>
    match ns.ingressesResult with
    | .error e => .error e
    | .ok ingresses =>
      if ingresses.isEmpty then listIngressesLoop m rest
      else listIngressesLoop (ingresses.foldl (processIngress ns.name) m) rest

/-- `list_ingresses(netApi, coreApi)`: returns the nested mapping and the
header schema, or propagates the first ingress-listing exception. -/
def list_ingresses (nss : List IngressNamespace) :
    Except PyExc (IngressMap × List String) :=
  match listIngressesLoop [] nss with
  | .error e => .error e
  | .ok m => .ok (m, ingressHeaders)

/-- One row appended by `flatten_ingress_data`. -/
structure IngressRow : Type where
  project_id : String
  cluster_name : String
  namespaceName : String
  ingress_name : String
  rule_count : Nat
  route : String
  service : String
  port : String
  ingress_class : Option String
deriving DecidableEq, Repr

/-- The row built at the innermost level of `flatten_ingress_data`. -/
def rowOfLeaf (p c n i : String) (rc : Nat × IngressDetails) : IngressRow :=
  ⟨p, c, n, i, rc.1, rc.2.route, rc.2.service, rc.2.port, rc.2.ingress_class⟩

/-- Innermost loop of `flatten_ingress_data`: `for rule_count, details in rules.items()`. -/
def flattenRules (p c n i : String) (rules : List (Nat × IngressDetails)) : List IngressRow :=
  rules.map (rowOfLeaf p c n i)

/-- `for ingress_name, rules in ingresses.items()`. -/
def flattenIngs (p c n : String) (ings : List (String × List (Nat × IngressDetails))) :
    List IngressRow :=
  ings.flatMap (fun ic => flattenRules p c n ic.1 ic.2)

/-- `for namespace, ingresses in namespaces.items()`. -/
def flattenNss (p c : String)
    (nspaces : List (String × List (String × List (Nat × IngressDetails)))) :
    List IngressRow :=
  nspaces.flatMap (fun nc => flattenIngs p c nc.1 nc.2)

/-- `for cluster_name, namespaces in clusters.items()`. -/
def flattenClusters (p : String)
    (clusters : List (String × List (String × List (String × List (Nat × IngressDetails))))) :
    List IngressRow :=
  clusters.flatMap (fun cc => flattenNss p cc.1 cc.2)

/-- `flatten_ingress_data(data)` (lines 258-280): one row per leaf, in the
order of the five nested insertion-ordered dicts. -/
def flatten_ingress_data (data : IngressMap) : List IngressRow :=
  data.flatMap (fun pc => flattenClusters pc.1 pc.2)

/- ### `list_gateways`: gateway walker and address classification -/

/-- A Python dict key as used in the gateway structures: the nested
mapping is keyed by strings at the outer levels and by the integer
`listener_count` at the innermost level, while `flatten_gateway_data`
indexes with string field names; both key sorts live in one dict type. -/
inductive PyKey : Type where
  | i (n : Nat)
  | s (str : String)
deriving DecidableEq, Repr

/-- One entry of `gateway.status.addresses`. -/
structure GwAddress : Type where
  ty : String
  value : String
deriving DecidableEq, Repr

/-- One entry of `gateway.spec.listeners`; each field is read with
`.get(...)`, so each may be absent (`None`). -/
structure Listener : Type where
  name : Option String
  protocol : Option String
  port : Option Nat
deriving DecidableEq, Repr

/-- One Gateway custom object as read by `list_gateways`. -/
structure Gateway : Type where
  name : String
  gatewayClassName : Option String
  statusAddresses : List GwAddress
  listeners : List Listener
deriving DecidableEq, Repr

/-- The `for address in addresses` loop of `list_gateways` (lines 214-223),
threading the pair `(loadbalancer, ip_address)`.  Each iteration first runs
the `if/elif` on the address type, then the separate
`if not ip_address and address["type"] == "IPAddress"` check. -/
def classifyAddresses (addresses : List GwAddress) : Option String × Option String :=
  addresses.foldl (fun (acc : Option String × Option String) address =>
    let step :=
      if address.ty = "IPAddress" then (acc.1, some address.value)
      else if address.ty = "Hostname" && pyInStr "loadbalancer" (pyLower address.value) then
        (some address.value, acc.2)
      else acc
    if pyFalsyStr step.2 && address.ty = "IPAddress" then
      (some "inferred", some address.value)
    else step) (none, none)

/-- The leaf dict stored per listener: a string-keyed dict whose values are
strings or `None`, in the insertion order of the source dict literal
(lines 244-252). -/
abbrev GwDict : Type := List (String × Option String)

/-- The nested mapping built by `list_gateways`:
project → cluster → namespace → gateway name → listener_count → leaf dict.
The innermost dict is keyed by `PyKey.i listener_count`. -/
abbrev GatewayMap : Type :=
  List (String × List (String × List (String × List (String × List (PyKey × GwDict)))))

/-- The leaf dict literal of `list_gateways` (lines 244-252). -/
def gatewayLeafDict (gateway_class : String) (loadbalancer ip_address : Option String)
    (l : Listener) : GwDict :=
  [("gateway_class", some gateway_class),
   ("loadbalancer", some (pyOrStr loadbalancer "None")),
   ("ip_address", some (pyOrStr ip_address "None")),
   ("listener_name", l.name),
   ("listener_protocol", l.protocol),
   ("listener_port", some (pyStrOfOptNat l.port)),
   ("routes", some "N/A")]

/-- The chained `setdefault` insertion of `list_gateways` (lines 240-252). -/
def insertGatewayLeaf (m : GatewayMap) (p c n g : String) (k : PyKey) (d : GwDict) :
    GatewayMap :=
  dictModify p [] (fun clusters =>
    dictModify c [] (fun nspaces =>
      dictModify n [] (fun gws =>
        dictModify g [] (fun listeners =>
          dictSet k d listeners) gws) nspaces) clusters) m

/-- The body of `for gateway in gateways` (lines 205-253): resolve class
and addresses, then insert one leaf per listener while incrementing
`listener_count`. -/
def processGateway (nspace : String) (m : GatewayMap) (gw : Gateway) : GatewayMap :=
  let gateway_class := gw.gatewayClassName.getD "None"
  let lbip := classifyAddresses gw.statusAddresses
  (gw.listeners.foldl (fun (acc : GatewayMap × Nat) listener =>
    (insertGatewayLeaf acc.1 PROJECT_ID CLUSTER_NAME nspace gw.name (PyKey.i acc.2)
      (gatewayLeafDict gateway_class lbip.1 lbip.2 listener), acc.2 + 1)) (m, 0)).1

/-- The header schema returned by `list_gateways`. -/
def gatewayHeaders : List String :=
  ["PROJECT_ID", "CLUSTER_NAME", "namespace", "gateway_name", "gateway_class",
   "loadbalancer", "ip_address", "listener_count", "listener_name", "listener_protocol",
   "listener_port", "routes"]

/-- Environment for one namespace seen by `list_gateways`: the namespace
name and the outcome of `customApi.list_namespaced_custom_object(...)`. -/
structure GatewayNamespace : Type where
  name : String
  gatewaysResult : Except PyExc (List Gateway)

/-- The namespace loop of `list_gateways` (lines 187-253).  The listing
call sits in `try: ... except Exception: print(...); continue`, so a
listing failure is reported and the walk continues with the next
namespace. -/
def listGatewaysLoop (m : GatewayMap) : List GatewayNamespace → GatewayMap
  | [] => m
  | ns :: rest =>
    match ns.gatewaysResult with
    | .error _ => listGatewaysLoop m rest
    | .ok gateways =>
      if gateways.isEmpty then listGatewaysLoop m rest
      else listGatewaysLoop (gateways.foldl (processGateway ns.name) m) rest

/-- `list_gateways(coreApi)`: the nested mapping and the header schema.
Unlike `list_ingresses` this function never raises. -/
def list_gateways (nss : List GatewayNamespace) : GatewayMap × List String :=
  (listGatewaysLoop [] nss, gatewayHeaders)

/-- `details[key]` in `flatten_gateway_data`: Python raises `KeyError` when
the key is unbound. -/
def pyGetItem {β : Type} (d : List (PyKey × β)) (k : PyKey) (keyRepr : String) :
    Except PyExc β :=
  match dictLookup k d with
  | some v => .ok v
  | none => .error ⟨⟨.keyError, keyRepr⟩, []⟩

/-- One row appended by `flatten_gateway_data`.  The source iterates one
nesting level short of the leaves: `details` there is the dict keyed by
`listener_count`, so the values its string lookups would return (were they
to exist) are whole per-listener dicts, not field strings; on records built
by `list_gateways` the first lookup already fails. -/
structure GatewayRow : Type where
  project_id : String
  cluster_name : String
  namespaceName : String
  gateway_name : String
  gateway_class : GwDict
  loadbalancer : GwDict
  ip_address : GwDict
  listener_count : GwDict
  listener_name : GwDict
  listener_protocol : GwDict
  listener_port : GwDict
  routes : GwDict
deriving DecidableEq, Repr

/-- `for gateway_name, details in gateways.items()` of `flatten_gateway_data`
(lines 292-306): note this is the namespace level's dict, so `details` is the
`listener_count`-keyed dict and every `details["..."]` lookup uses a string
key against integer keys. -/
def flattenGatewayRows4 (p c n : String) :
    List (String × List (PyKey × GwDict)) → Except PyExc (List GatewayRow)
  | [] => .ok []
  | (gateway_name, details) :: rest => do
    let gateway_class ← pyGetItem details (PyKey.s "gateway_class") "gateway_class"
    let loadbalancer ← pyGetItem details (PyKey.s "loadbalancer") "loadbalancer"
    let ip_address ← pyGetItem details (PyKey.s "ip_address") "ip_address"
    let listener_count ← pyGetItem details (PyKey.s "listener_count") "listener_count"
    let listener_name ← pyGetItem details (PyKey.s "listener_name") "listener_name"
    let listener_protocol ← pyGetItem details (PyKey.s "listener_protocol") "listener_protocol"
    let listener_port ← pyGetItem details (PyKey.s "listener_port") "listener_port"
    let routes ← pyGetItem details (PyKey.s "routes") "routes"
    let rows ← flattenGatewayRows4 p c n rest
    pure (⟨p, c, n, gateway_name, gateway_class, loadbalancer, ip_address,
      listener_count, listener_name, listener_protocol, listener_port, routes⟩ :: rows)

/-- `for namespace, gateways in namespaces.items()`. -/
def flattenGatewayRows3 (p c : String) :
    List (String × List (String × List (PyKey × GwDict))) → Except PyExc (List GatewayRow)
  | [] => .ok []
  | (n, gateways) :: rest => do
    let rows1 ← flattenGatewayRows4 p c n gateways
    let rows2 ← flattenGatewayRows3 p c rest
    pure (rows1 ++ rows2)

/-- `for cluster_name, namespaces in clusters.items()`. -/
def flattenGatewayRows2 (p : String) :
    List (String × List (String × List (String × List (PyKey × GwDict)))) →
    Except PyExc (List GatewayRow)
  | [] => .ok []
  | (c, nspaces) :: rest => do
    let rows1 ← flattenGatewayRows3 p c nspaces
    let rows2 ← flattenGatewayRows2 p rest
    pure (rows1 ++ rows2)

/-- `flatten_gateway_data(data)` (lines 284-308): iterates only four of the
five nesting levels of the mapping built by `list_gateways`. -/
def flatten_gateway_data (data : GatewayMap) : Except PyExc (List GatewayRow) :=
  match data with
  | [] => .ok []
  | (p, clusters) :: rest => do
    let rows1 ← flattenGatewayRows2 p clusters
    let rows2 ← flatten_gateway_data rest
    pure (rows1 ++ rows2)

/- ### `list_workloads_and_routes`: deployment-service-route correlation -/

/-- `path.path or '/'`: `None` and `""` are falsy and yield `"/"`. -/
def pyOrSlash (p : Option String) : String :=
  match p with
  | none => "/"
  | some s => if s = "" then "/" else s

/-- One Deployment as read by `list_workloads_and_routes`:
`metadata.name` and `spec.selector.match_labels`. -/
structure Deployment : Type where
  name : String
  matchLabels : List (String × String)
deriving DecidableEq, Repr

/-- One Service: `metadata.name` and `spec.selector` (possibly `None`). -/
structure Service : Type where
  name : String
  selector : Option (List (String × String))
deriving DecidableEq, Repr

/-- Environment for one namespace seen by `list_workloads_and_routes`:
the namespace name and the listing results it consumes. -/
structure WorkloadNamespace : Type where
  name : String
  deployments : List Deployment
  services : List Service
  ingresses : List Ingress

/-- The match test of lines 118-119:
`svc_name == service.metadata.name and (svc_selector == selector or
svc_name.startswith(dep_name))`, where `svc_selector` is
`service.spec.selector or {}` and `selector` is the deployment's
`match_labels`. -/
def matchCond (dep : Deployment) (svc_name : String) (service : Service) : Bool :=
  svc_name == service.name &&
    (pyDictBeq (service.selector.getD []) dep.matchLabels || svc_name.startsWith dep.name)

/-- Line 123: `print(f"{project_id:<20} {dep_name:<30} {route}")`.  The
name `project_id` is not defined in this function or at module level (the
module constant is `PROJECT_ID`), so evaluating the f-string raises
`NameError`. -/
def wlEmit (dep_name route : String) : Except PyExc String :=
  .error ⟨⟨.nameError, "name project_id is not defined"⟩, []⟩

/-- `list_workloads_and_routes(netApi, coreApi)` (lines 81-123), returning
the printed report lines.  The traversal is namespaces → deployments →
ingresses → rules → paths → services, emitting one line per matching
(deployment, ingress path, service) combination without deduplication. -/
def list_workloads_and_routes (nss : List WorkloadNamespace) :
    Except PyExc (List String) :=
  nss.foldlM (fun lines ns =>
    if ns.deployments.isEmpty then pure lines
    else ns.deployments.foldlM (fun lines2 dep =>
      ns.ingresses.foldlM (fun lines3 ing =>
        (pyOrList ing.rules).foldlM (fun lines4 rule =>
          (pyOrList rule.paths).foldlM (fun lines5 path =>
            ns.services.foldlM (fun lines6 service =>
              if matchCond dep path.serviceName service then do
                let route := pyStrOfOpt rule.host ++ pyOrSlash path.path
                let line ← wlEmit dep.name route
                pure (lines6 ++ [line])
              else pure lines6) lines5) lines4) lines3) lines2) lines) []

/- ### Spec-side aggregation view used to state round-trip properties -/

/-- The Record Aggregator of the spec: insert a sequence of correlated
routes one at a time with `insertIngressLeaf`. -/
def aggregateIngress (entries : List (IngressKey × IngressDetails)) (m : IngressMap) :
    IngressMap :=
  entries.foldl (fun acc e => insertIngressLeaf acc e.1 e.2) m

/-- The flat row corresponding to one inserted leaf. -/
def ingressRowOf (k : IngressKey) (det : IngressDetails) : IngressRow :=
  ⟨k.project, k.cluster, k.namespaceName, k.resource, k.ruleIndex,
   det.route, det.service, det.port, det.ingress_class⟩

/-- The composite key carried by one flat row. -/
def ingressRowKey (r : IngressRow) : IngressKey :=
  ⟨r.project_id, r.cluster_name, r.namespaceName, r.ingress_name, r.rule_count⟩

/-- The details values produced for one Ingress object, in traversal order
(rules, then paths within each rule). -/
def ingressDetailsList (ing : Ingress) : List IngressDetails :=
  (pyOrList ing.rules).flatMap (fun rule =>
    (pyOrList rule.paths).map (ingressPathDetails (ingressClassOf ing) rule))

/-- The (key, details) insertions performed for one Ingress object:
`rule_count` counts paths from `0` in traversal order. -/
def ingressEntries (nspace : String) (ing : Ingress) :
    List (IngressKey × IngressDetails) :=
  (ingressDetailsList ing).enum.map (fun jd =>
    (⟨PROJECT_ID, CLUSTER_NAME, nspace, ing.name, jd.1⟩, jd.2))

/-- All insertions performed for one namespace. -/
def namespaceEntries (nspace : String) (ings : List Ingress) :
    List (IngressKey × IngressDetails) :=
  ings.flatMap (ingressEntries nspace)

/-- All insertions performed by one run of `list_ingresses`. -/
def allIngressEntries (nss : List (String × List Ingress)) :
    List (IngressKey × IngressDetails) :=
  nss.flatMap (fun p => namespaceEntries p.1 p.2)

/-- The rows the run should produce, one per traversed (rule, path). -/
def expectedIngressRows (nss : List (String × List Ingress)) : List IngressRow :=
  (allIngressEntries nss).map (fun e => ingressRowOf e.1 e.2)

/-- An environment in which every ingress listing succeeds. -/
def okIngressEnv (nss : List (String × List Ingress)) : List IngressNamespace :=
  nss.map (fun p => ⟨p.1, .ok p.2⟩)

/- ### Concrete inputs used by witnesses and evaluations -/

def excTimeout : PyExc := ⟨⟨.connectTimeout, "connection to 10.0.0.2 timed out"⟩, []⟩

def excApi : PyExc := ⟨⟨.apiException, "403 Forbidden"⟩, []⟩

/-- Both credential calls succeed and both probes succeed. -/
def envPrivateOk : ClusterEnv := ⟨.ok (), .ok (), .ok (), .ok ()⟩

/-- The private probe times out; the public endpoint works. -/
def envPrivateDown : ClusterEnv := ⟨.ok (), .error excTimeout, .ok (), .ok ()⟩

/-- The private probe times out and the public probe is rejected. -/
def envBothDown : ClusterEnv := ⟨.ok (), .error excTimeout, .ok (), .error excApi⟩

def gwListenerHttp : Listener := ⟨some "http", some "HTTP", some 80⟩

/-- A gateway whose status carries a single `IPAddress` address. -/
def gwExample : Gateway :=
  ⟨"gw1", some "gke-l7-global-external-managed", [⟨"IPAddress", "10.0.0.5"⟩], [gwListenerHttp]⟩

def gwEnvExample : List GatewayNamespace := [⟨"default", .ok [gwExample]⟩]

def keyExample : IngressKey := ⟨"p1", "c1", "default", "web", 0⟩

def detailsA : IngressDetails := ⟨"a.example/", "svc-a", "80", none⟩

def detailsB : IngressDetails := ⟨"b.example/", "svc-b", "8080", some "nginx"⟩

def pathA : IngressPath := ⟨some "/api", "svc-a", some 80⟩

def pathB : IngressPath := ⟨none, "svc-b", some 8080⟩

def ruleA : IngressRule := ⟨some "a.example", some [pathA, pathB]⟩

def ruleB : IngressRule := ⟨none, some [pathA]⟩

def ingWeb : Ingress := ⟨"web", some [(ingressClassKey, "nginx")], some [ruleA, ruleB]⟩

def ingApi : Ingress := ⟨"api", none, some [ruleB]⟩

/-- Two namespaces with distinct names, ingress names distinct per namespace. -/
def ingNssExample : List (String × List Ingress) :=
  [("default", [ingWeb, ingApi]), ("kube-system", [ingWeb])]

def gwNsErr : GatewayNamespace := ⟨"broken", .error ⟨⟨.apiException, "404 Not Found"⟩, []⟩⟩

def gwNsOk : GatewayNamespace := ⟨"default", .ok [gwExample]⟩

def ingNsErr : IngressNamespace := ⟨"broken", .error excApi⟩

def ingNsOk : IngressNamespace := ⟨"default", .ok [ingApi]⟩

def depFoo : Deployment := ⟨"foo", [("app", "foo")]⟩

def svcFoo : Service := ⟨"foo-svc", some [("app", "foo")]⟩

def wlIngress : Ingress := ⟨"ing", none, some [⟨some "foo.example", some [⟨some "/", "foo-svc", some 80⟩]⟩]⟩

def wlEnvExample : List WorkloadNamespace := [⟨"default", [depFoo], [svcFoo], [wlIngress]⟩]

/- ### Theorems -/

/-- Exception chaining does not change the exception's own data. -/
theorem withContext_data (a b : PyExc) : (withContext a b).data = a.data := by
  unfold withContext
  split <;> rfl

/-- Exception chaining leaves the exception's own data unchanged, so the
`except` clause that matches it is unaffected. -/
theorem fallbackCaught_withContext (a b : PyExc) :
    fallbackCaught (withContext a b) = fallbackCaught a := by
  unfold fallbackCaught
  rw [withContext_data]

/-- Claim C10: the `use_private_endpoint` keyword argument of
`init_k8s_client` has no effect: for every environment state, calling with
`True` and with `False` performs the same sequence of connection attempts
(private first, then public) and produces the same result.  The body reads
only literals, never the parameter. -/
theorem c10_use_private_endpoint_has_no_effect (b1 b2 : Bool) (env : ClusterEnv) :
    init_k8s_client b1 env = init_k8s_client b2 env := rfl

/-- Claim C1: when both the private-endpoint attempt and the
public-endpoint attempt fail with caught exception classes, the final
exception raised by `init_k8s_client` carries both underlying causes: its
implicit context chain is exactly the public failure followed by the
private failure (PEP 3134 chaining through the nested handlers). -/
theorem c1_exhausted_error_carries_both_causes (b : Bool) (env : ClusterEnv) (e e2 : PyExc)
    (hpriv : attemptEndpoint env.getCredsPrivate env.probePrivate = .error e)
    (hprivTy : fallbackCaught e = true)
    (hpub : attemptEndpoint env.getCredsPublic env.probePublic = .error e2)
    (hpubTy : fallbackCaught e2 = true)
    (hfresh1 : e.contextChain = []) (hfresh2 : e2.contextChain = []) :
    (init_k8s_client b env).2 =
      .error ⟨⟨.genericException, exhaustedMsg⟩, [e2.data, e.data]⟩ := by
  have hctx : withContext e2 e = ⟨e2.data, [e.data]⟩ := by
    simp [withContext, hfresh1, hfresh2]
  have hcaught2 : fallbackCaught ⟨e2.data, [e.data]⟩ = true := by
    rw [← hctx, fallbackCaught_withContext]; exact hpubTy
  simp only [init_k8s_client, hpriv, hpub, hprivTy, if_true, hctx, hcaught2]
  simp [withContext]

/-- Witness for C1 at a concrete environment: private probe times out,
public probe is rejected by the API server. -/
theorem c1_witness :
    attemptEndpoint envBothDown.getCredsPrivate envBothDown.probePrivate = .error excTimeout ∧
    fallbackCaught excTimeout = true ∧
    attemptEndpoint envBothDown.getCredsPublic envBothDown.probePublic = .error excApi ∧
    fallbackCaught excApi = true ∧
    excTimeout.contextChain = [] ∧ excApi.contextChain = [] ∧
    (init_k8s_client true envBothDown).2 =
      .error ⟨⟨.genericException, exhaustedMsg⟩, [excApi.data, excTimeout.data]⟩ :=
  ⟨rfl, rfl, rfl, rfl, rfl, rfl,
    c1_exhausted_error_carries_both_causes true envBothDown excTimeout excApi
      rfl rfl rfl rfl rfl rfl⟩

/-- Claim C2: a reachable private endpoint means the public endpoint is
never attempted and the session is tagged private; a private probe failing
with a timeout or API error followed by a reachable public endpoint means
both candidates are visited in order (private first, then public) and the
session is tagged public. -/
theorem c2_private_first_then_public_fallback :
    (∀ (b : Bool) (env : ClusterEnv),
      env.getCredsPrivate = .ok () → env.probePrivate = .ok () →
      init_k8s_client b env = ([.privateEp], .ok ⟨.privateEp⟩)) ∧
    (∀ (b : Bool) (env : ClusterEnv) (e : PyExc),
      env.getCredsPrivate = .ok () → env.probePrivate = .error e →
      (e.data.ty = .connectTimeout ∨ e.data.ty = .apiException) →
      env.getCredsPublic = .ok () → env.probePublic = .ok () →
      init_k8s_client b env = ([.privateEp, .publicEp], .ok ⟨.publicEp⟩)) := by
  constructor
  · intro b env h1 h2
    simp [init_k8s_client, attemptEndpoint, h1, h2]
  · intro b env e h1 h2 hty h3 h4
    have hcaught : fallbackCaught e = true := by
      unfold fallbackCaught
      rcases hty with h | h <;> rw [h]
    simp [init_k8s_client, attemptEndpoint, h1, h2, h3, h4, hcaught]

/-- Witness for C2: one environment with a working private endpoint, and
one with a timed-out private probe but a working public endpoint. -/
theorem c2_witness :
    (envPrivateOk.getCredsPrivate = .ok () ∧ envPrivateOk.probePrivate = .ok () ∧
      init_k8s_client true envPrivateOk = ([.privateEp], .ok ⟨.privateEp⟩)) ∧
    (envPrivateDown.getCredsPrivate = .ok () ∧
      envPrivateDown.probePrivate = .error excTimeout ∧
      excTimeout.data.ty = .connectTimeout ∧
      envPrivateDown.getCredsPublic = .ok () ∧ envPrivateDown.probePublic = .ok () ∧
      init_k8s_client true envPrivateDown = ([.privateEp, .publicEp], .ok ⟨.publicEp⟩)) :=
  ⟨⟨rfl, rfl, c2_private_first_then_public_fallback.1 true envPrivateOk rfl rfl⟩,
   ⟨rfl, rfl, rfl, rfl, rfl,
     c2_private_first_then_public_fallback.2 true envPrivateDown excTimeout rfl rfl
       (Or.inl rfl) rfl rfl⟩⟩

/-- Claim C3 (code bug): on `addresses = [{type: IPAddress, value:
"10.0.0.5"}]` the claimed three-tier policy demands `loadbalancer =
"inferred"` and `ip_address = "10.0.0.5"`, but the code's
`if not ip_address and address["type"] == "IPAddress"` guard runs after
`ip_address` has already been assigned in the same iteration, so the
`"inferred"` branch never fires for a non-empty IP value: the run stores
`loadbalancer = "None"`.  The Hostname tier and the empty-address case do
behave as claimed. -/
theorem c3_ip_only_address_never_yields_inferred :
    classifyAddresses [⟨"IPAddress", "10.0.0.5"⟩] = (none, some "10.0.0.5") ∧
    classifyAddresses [⟨"Hostname", "my-loadbalancer.example"⟩] =
      (some "my-loadbalancer.example", none) ∧
    classifyAddresses [] = (none, none) ∧
    (list_gateways gwEnvExample).1 =
      [(PROJECT_ID, [(CLUSTER_NAME, [("default", [("gw1",
        [(PyKey.i 0,
          gatewayLeafDict "gke-l7-global-external-managed" none (some "10.0.0.5")
            gwListenerHttp)])])])])] ∧
    dictLookup "loadbalancer"
      (gatewayLeafDict "gke-l7-global-external-managed" none (some "10.0.0.5")
        gwListenerHttp) = some (some "None") ∧
    dictLookup "ip_address"
      (gatewayLeafDict "gke-l7-global-external-managed" none (some "10.0.0.5")
        gwListenerHttp) = some (some "10.0.0.5") :=
  ⟨rfl, rfl, rfl, rfl, rfl, rfl⟩

/-- Claim C5 (code bug): `flatten_ingress_data` does yield one row per
aggregated route, but `flatten_gateway_data` iterates one nesting level
short of the structure `list_gateways` builds, so on any inventory record
holding at least one gateway listener it raises `KeyError:
'gateway_class'` instead of yielding rows. -/
theorem c5_gateway_flatten_raises_keyerror :
    flatten_gateway_data (list_gateways gwEnvExample).1 =
      .error ⟨⟨.keyError, "gateway_class"⟩, []⟩ ∧
    (∃ m, list_ingresses (okIngressEnv [("default", [ingApi])]) = .ok (m, ingressHeaders) ∧
      flatten_ingress_data m = [ingressRowOf ⟨PROJECT_ID, CLUSTER_NAME, "default", "api", 0⟩
        (ingressPathDetails none ruleB pathA)]) :=
  ⟨rfl, ⟨_, rfl, rfl⟩⟩

/-- Claim C9 (code bug): the match predicate of
`list_workloads_and_routes` is service-name equality together with
(label-selector equality OR deployment-name string prefix), as claimed;
but no matched route is ever reported, because the report line references
the undefined name `project_id` (the module constant is `PROJECT_ID`), so
the first match raises `NameError`. -/
theorem c9_first_match_raises_nameerror :
    matchCond depFoo "foo-svc" svcFoo = true ∧
    list_workloads_and_routes wlEnvExample =
      .error ⟨⟨.nameError, "name project_id is not defined"⟩, []⟩ :=
  ⟨rfl, rfl⟩

/-- One failing namespace is skipped by `list_gateways`: the result is the
same as if the namespace were absent. -/
theorem listGatewaysLoop_skip (pre : List GatewayNamespace) :
    ∀ (m : GatewayMap) (ns : GatewayNamespace) (post : List GatewayNamespace) (e : PyExc),
      ns.gatewaysResult = .error e →
      listGatewaysLoop m (pre ++ ns :: post) = listGatewaysLoop m (pre ++ post) := by
  induction pre with
  | nil =>
    intro m ns post e h
    simp only [List.nil_append, listGatewaysLoop, h]
  | cons ns2 rest ih =>
    intro m ns post e h
    cases h2 : ns2.gatewaysResult with
    | error e2 =>
      simp only [List.cons_append, listGatewaysLoop, h2]
      exact ih m ns post e h
    | ok gws =>
      simp only [List.cons_append, listGatewaysLoop, h2]
      by_cases hg : gws.isEmpty = true
      · simp only [if_pos hg]
        exact ih m ns post e h
      · simp only [if_neg hg]
        exact ih _ ns post e h

/-- A failing ingress listing propagates: once all earlier namespaces
succeed, the loop returns exactly that error. -/
theorem listIngressesLoop_error (pre : List IngressNamespace) :
    ∀ (m : IngressMap) (ns : IngressNamespace) (post : List IngressNamespace) (e : PyExc),
      (∀ ns2 ∈ pre, ∃ l, ns2.ingressesResult = .ok l) →
      ns.ingressesResult = .error e →
      listIngressesLoop m (pre ++ ns :: post) = .error e := by
  induction pre with
  | nil =>
    intro m ns post e _ h
    simp only [List.nil_append, listIngressesLoop, h]
  | cons ns2 rest ih =>
    intro m ns post e hpre h
    obtain ⟨l, hl⟩ := hpre ns2 (List.mem_cons_self ns2 rest)
    have hrest : ∀ ns3 ∈ rest, ∃ l3, ns3.ingressesResult = .ok l3 := by
      intro ns3 h3
      exact hpre ns3 (List.mem_cons_of_mem ns2 h3)
    simp only [List.cons_append, listIngressesLoop, hl]
    by_cases hg : l.isEmpty = true
    · simp only [if_pos hg]
      exact ih m ns post e hrest h
    · simp only [if_neg hg]
      exact ih _ ns post e hrest h

/-- Claim C8: a namespace whose Gateway listing fails is reported and
skipped — the walk continues and produces the same inventory as if that
namespace were absent — whereas a namespace whose Ingress listing fails
makes `list_ingresses` propagate that very error and abort the walk. -/
theorem c8_gateway_soft_skip_ingress_hard_fail :
    (∀ (pre post : List GatewayNamespace) (ns : GatewayNamespace) (e : PyExc),
      ns.gatewaysResult = .error e →
      list_gateways (pre ++ ns :: post) = list_gateways (pre ++ post)) ∧
    (∀ (pre post : List IngressNamespace) (ns : IngressNamespace) (e : PyExc),
      (∀ ns2 ∈ pre, ∃ l, ns2.ingressesResult = .ok l) →
      ns.ingressesResult = .error e →
      list_ingresses (pre ++ ns :: post) = .error e) := by
  constructor
  · intro pre post ns e h
    unfold list_gateways
    rw [listGatewaysLoop_skip pre [] ns post e h]
  · intro pre post ns e hpre h
    unfold list_ingresses
    rw [listIngressesLoop_error pre [] ns post e hpre h]

/-- Witness for C8: a concrete broken namespace between two healthy ones
for the gateway walk, and at the head for the ingress walk. -/
theorem c8_witness :
    (gwNsErr.gatewaysResult = .error ⟨⟨.apiException, "404 Not Found"⟩, []⟩ ∧
      list_gateways ([gwNsOk] ++ gwNsErr :: [gwNsOk]) = list_gateways ([gwNsOk] ++ [gwNsOk])) ∧
    ((∀ ns2 ∈ ([ingNsOk] : List IngressNamespace), ∃ l, ns2.ingressesResult = .ok l) ∧
      ingNsErr.ingressesResult = .error excApi ∧
      list_ingresses ([ingNsOk] ++ ingNsErr :: [ingNsOk]) = .error excApi) :=
  ⟨⟨rfl, c8_gateway_soft_skip_ingress_hard_fail.1 [gwNsOk] [gwNsOk] gwNsErr
      ⟨⟨.apiException, "404 Not Found"⟩, []⟩ rfl⟩,
   ⟨fun ns2 h2 => ⟨[ingApi], by
      rcases List.mem_singleton.mp h2 with h
      rw [h]
      rfl⟩,
    rfl,
    c8_gateway_soft_skip_ingress_hard_fail.2 [ingNsOk] [ingNsOk] ingNsErr excApi
      (fun ns2 h2 => ⟨[ingApi], by
        rcases List.mem_singleton.mp h2 with h
        rw [h]
        rfl⟩) rfl⟩⟩

/-- Characterisation of lookup after a `setdefault`-and-mutate step. -/
theorem dictLookup_dictModify {α β : Type} [DecidableEq α] (d : List (α × β))
    (k k2 : α) (dflt : β) (f : β → β) :
    dictLookup k2 (dictModify k dflt f d) =
      if k2 = k then some (f ((dictLookup k d).getD dflt)) else dictLookup k2 d := by
  induction d with
  | nil =>
    by_cases h : k2 = k
    · subst h
      simp [dictModify, dictLookup]
    · simp [dictModify, dictLookup, h, Ne.symm h]
  | cons ab rest ih =>
    obtain ⟨a, b⟩ := ab
    by_cases ha : a = k
    · subst ha
      by_cases h2 : k2 = a
      · subst h2
        simp [dictModify, dictLookup]
      · simp [dictModify, dictLookup, h2, Ne.symm h2]
    · by_cases h2 : a = k2
      · subst h2
        simp [dictModify, dictLookup, ha, Ne.symm ha]
      · simp [dictModify, dictLookup, ha, h2, ih]

/-- Characterisation of lookup after a plain dict assignment. -/
theorem dictLookup_dictSet {α β : Type} [DecidableEq α] (d : List (α × β))
    (k k2 : α) (v : β) :
    dictLookup k2 (dictSet k v d) = if k2 = k then some v else dictLookup k2 d := by
  induction d with
  | nil =>
    by_cases h : k2 = k
    · subst h
      simp [dictSet, dictLookup]
    · simp [dictSet, dictLookup, h, Ne.symm h]
  | cons ab rest ih =>
    obtain ⟨a, b⟩ := ab
    by_cases ha : a = k
    · subst ha
      by_cases h2 : k2 = a
      · subst h2
        simp [dictSet, dictLookup]
      · simp [dictSet, dictLookup, h2, Ne.symm h2]
    · by_cases h2 : a = k2
      · subst h2
        simp [dictSet, dictLookup, ha, Ne.symm ha]
      · simp [dictSet, dictLookup, ha, h2, ih]

/-- Full characterisation of a leaf lookup after one insertion: the
inserted key now holds the new value (overwriting any previous one), every
other key is untouched. -/
theorem lookupLeaf_insertIngressLeaf (m : IngressMap) (k k2 : IngressKey)
    (det : IngressDetails) :
    lookupLeaf (insertIngressLeaf m k det) k2 =
      if k2 = k then some det else lookupLeaf m k2 := by
  obtain ⟨p, c, n, r, j⟩ := k
  obtain ⟨p2, c2, n2, r2, j2⟩ := k2
  simp only [insertIngressLeaf, lookupLeaf, IngressKey.mk.injEq]
  by_cases hp : p2 = p
  case neg => simp [dictLookup_dictModify, hp]
  subst hp
  by_cases hc : c2 = c
  case neg => simp [dictLookup_dictModify, hc]
  subst hc
  by_cases hn : n2 = n
  case neg => simp [dictLookup_dictModify, hn]
  subst hn
  by_cases hr : r2 = r
  case neg => simp [dictLookup_dictModify, hr]
  subst hr
  by_cases hj : j2 = j
  case neg => simp [dictLookup_dictModify, dictLookup_dictSet, hj]
  subst hj
  simp [dictLookup_dictModify, dictLookup_dictSet]

/-- Claim C4, amended behaviour: leaf insertion always stores the new
value at the composite key — also when the leaf key is already occupied,
in which case the old value is silently replaced (plain dict assignment);
all other leaves are untouched.  No `DuplicateLeafKey` error exists
anywhere in the code. -/
theorem c4_insert_silently_overwrites (m : IngressMap) (k k2 : IngressKey)
    (det : IngressDetails) :
    lookupLeaf (insertIngressLeaf m k det) k2 =
      if k2 = k then some det else lookupLeaf m k2 :=
  lookupLeaf_insertIngressLeaf m k k2 det

/-- Counterexample to claim C4 as stated: at a concrete occupied leaf key
the second insertion neither raises nor preserves the old value — the leaf
now holds the new value, which differs from the old one. -/
theorem c4_counterexample :
    lookupLeaf (insertIngressLeaf (insertIngressLeaf [] keyExample detailsA)
        keyExample detailsB) keyExample = some detailsB ∧
      detailsB ≠ detailsA := by
  constructor
  · rfl
  · intro h
    simp [detailsA, detailsB] at h

/-- Assignment at an unbound key appends the binding at the end. -/
theorem dictSet_absent {α β : Type} [DecidableEq α] (d : List (α × β)) (k : α) (v : β)
    (h : dictLookup k d = none) :
    dictSet k v d = d ++ [(k, v)] := by
  induction d with
  | nil => rfl
  | cons ab rest ih =>
    obtain ⟨a, b⟩ := ab
    by_cases ha : a = k
    · exfalso
      simp [dictLookup, ha] at h
    · simp only [dictLookup, if_neg ha] at h
      simp [dictSet, ha, ih h]

/-- `setdefault`-and-mutate at an unbound key appends the binding. -/
theorem dictModify_absent {α β : Type} [DecidableEq α] (d : List (α × β)) (k : α)
    (dflt : β) (f : β → β) (h : dictLookup k d = none) :
    dictModify k dflt f d = d ++ [(k, f dflt)] := by
  induction d with
  | nil => rfl
  | cons ab rest ih =>
    obtain ⟨a, b⟩ := ab
    by_cases ha : a = k
    · exfalso
      simp [dictLookup, ha] at h
    · simp only [dictLookup, if_neg ha] at h
      simp [dictModify, ha, ih h]

/-- Flattening distributes over concatenation of the outer container. -/
theorem flatten_ingress_append (d1 d2 : IngressMap) :
    flatten_ingress_data (d1 ++ d2) =
      flatten_ingress_data d1 ++ flatten_ingress_data d2 := by
  simp [flatten_ingress_data, List.flatMap_append]

/-- Claim C7: flattening is deterministic — applying `flatten_ingress_data`
twice to the same inventory record yields identical row sequences (it is a
pure function of the record) — and the output order follows the insertion
order preserved by the nested containers: rows come out in container
order, and a route inserted under a fresh project key (appended at the end
of the outermost dict) appears as the last row. -/
theorem c7_flatten_idempotent_and_insertion_ordered :
    (∀ m : IngressMap, flatten_ingress_data m = flatten_ingress_data m) ∧
    (∀ d1 d2 : IngressMap,
      flatten_ingress_data (d1 ++ d2) =
        flatten_ingress_data d1 ++ flatten_ingress_data d2) ∧
    (∀ (m : IngressMap) (k : IngressKey) (det : IngressDetails),
      dictLookup k.project m = none →
      flatten_ingress_data (insertIngressLeaf m k det) =
        flatten_ingress_data m ++ [ingressRowOf k det]) := by
  refine ⟨fun m => rfl, flatten_ingress_append, ?_⟩
  intro m k det h
  obtain ⟨p, c, n, r, j⟩ := k
  simp only [insertIngressLeaf] at *
  rw [dictModify_absent _ _ _ _ h, flatten_ingress_append]
  simp [flatten_ingress_data, flattenClusters, flattenNss, flattenIngs, flattenRules,
    dictModify, dictSet, ingressRowOf, rowOfLeaf]

/-- Witness for C7: inserting at a fresh project key into the empty record
appends exactly one row at the end. -/
theorem c7_witness :
    dictLookup keyExample.project ([] : IngressMap) = none ∧
    flatten_ingress_data (insertIngressLeaf [] keyExample detailsA) =
      flatten_ingress_data [] ++ [ingressRowOf keyExample detailsA] :=
  ⟨rfl, c7_flatten_idempotent_and_insertion_ordered.2.2 [] keyExample detailsA rfl⟩

/-- Folding over a concatenation of blocks is folding block by block. -/
theorem foldl_flatMap {α β σ : Type} (l : List α) (g : α → List β) (f : σ → β → σ) :
    ∀ (init : σ), (l.flatMap g).foldl f init =
      l.foldl (fun acc a => (g a).foldl f acc) init := by
  induction l with
  | nil => intro init; rfl
  | cons a rest ih =>
    intro init
    rw [List.flatMap_cons, List.foldl_append, List.foldl_cons, ih]

/-- Key permutation step: flattening after a `setdefault`-and-mutate whose
mutation adds exactly one new row to the touched entry is, up to
permutation, that row consed onto the old flattening. -/
theorem flatMap_dictModify_perm {α β γ : Type} [DecidableEq α]
    (k : α) (dflt : β) (f : β → β) (F : α × β → List γ) (x : γ)
    (d : List (α × β))
    (h0 : (F (k, f dflt)).Perm [x])
    (h1 : ∀ v, dictLookup k d = some v → (F (k, f v)).Perm (x :: F (k, v))) :
    ((dictModify k dflt f d).flatMap F).Perm (x :: d.flatMap F) := by
  revert h1
  induction d with
  | nil =>
    intro _
    simp only [dictModify, List.flatMap_cons, List.flatMap_nil, List.append_nil]
    exact h0
  | cons ab rest ih =>
    intro h1
    obtain ⟨a, b⟩ := ab
    by_cases ha : a = k
    · subst ha
      have hfb := h1 b (by simp [dictLookup])
      simp only [dictModify, if_pos rfl, List.flatMap_cons]
      exact hfb.append_right _
    · have h1' : ∀ v, dictLookup k rest = some v → (F (k, f v)).Perm (x :: F (k, v)) := by
        intro v hv
        exact h1 v (by simp [dictLookup, ha, hv])
      simp only [dictModify, if_neg ha, List.flatMap_cons]
      exact ((ih h1').append_left (F (a, b))).trans List.perm_middle

/-- Leaf level: a fresh `rule_count` assignment adds exactly its row. -/
theorem flattenRules_dictSet_fresh (p c n r : String)
    (rules : List (Nat × IngressDetails)) (j : Nat) (det : IngressDetails)
    (h : dictLookup j rules = none) :
    (flattenRules p c n r (dictSet j det rules)).Perm
      (rowOfLeaf p c n r (j, det) :: flattenRules p c n r rules) := by
  rw [flattenRules, flattenRules, dictSet_absent _ _ _ h, List.map_append]
  exact List.perm_append_singleton _ _

/-- Ingress-name level. -/
theorem flattenIngs_insert_fresh (p c n r : String)
    (ings : List (String × List (Nat × IngressDetails))) (j : Nat) (det : IngressDetails)
    (h : dictLookup j ((dictLookup r ings).getD []) = none) :
    (flattenIngs p c n (dictModify r [] (dictSet j det) ings)).Perm
      (rowOfLeaf p c n r (j, det) :: flattenIngs p c n ings) := by
  apply flatMap_dictModify_perm
  · exact List.Perm.refl _
  · intro v hv
    rw [hv] at h
    exact flattenRules_dictSet_fresh p c n r v j det (by simpa using h)

/-- Namespace level. -/
theorem flattenNss_insert_fresh (p c n r : String)
    (nspaces : List (String × List (String × List (Nat × IngressDetails))))
    (j : Nat) (det : IngressDetails)
    (h : dictLookup j
      ((dictLookup r ((dictLookup n nspaces).getD [])).getD []) = none) :
    (flattenNss p c (dictModify n []
        (fun ings => dictModify r [] (dictSet j det) ings) nspaces)).Perm
      (rowOfLeaf p c n r (j, det) :: flattenNss p c nspaces) := by
  apply flatMap_dictModify_perm
  · exact List.Perm.refl _
  · intro v hv
    rw [hv] at h
    exact flattenIngs_insert_fresh p c n r v j det (by simpa using h)

/-- Cluster level. -/
theorem flattenClusters_insert_fresh (p c n r : String)
    (clusters : List (String × List (String × List (String × List (Nat × IngressDetails)))))
    (j : Nat) (det : IngressDetails)
    (h : dictLookup j
      ((dictLookup r ((dictLookup n
        ((dictLookup c clusters).getD [])).getD [])).getD []) = none) :
    (flattenClusters p (dictModify c []
        (fun nspaces => dictModify n []
          (fun ings => dictModify r [] (dictSet j det) ings) nspaces) clusters)).Perm
      (rowOfLeaf p c n r (j, det) :: flattenClusters p clusters) := by
  apply flatMap_dictModify_perm
  · exact List.Perm.refl _
  · intro v hv
    rw [hv] at h
    exact flattenNss_insert_fresh p c n r v j det (by simpa using h)

/-- Inserting at a fresh composite leaf key adds exactly the corresponding
row, up to permutation. -/
theorem flatten_insert_fresh (m : IngressMap) (k : IngressKey) (det : IngressDetails)
    (h : lookupLeaf m k = none) :
    (flatten_ingress_data (insertIngressLeaf m k det)).Perm
      (ingressRowOf k det :: flatten_ingress_data m) := by
  obtain ⟨p, c, n, r, j⟩ := k
  apply flatMap_dictModify_perm
  · exact List.Perm.refl _
  · intro v hv
    rw [lookupLeaf] at h
    simp only at h hv
    rw [hv] at h
    exact flattenClusters_insert_fresh p c n r v j det (by simpa using h)

/-- The empty record has no leaves. -/
theorem lookupLeaf_nil (k : IngressKey) : lookupLeaf [] k = none := rfl

/-- Aggregating a sequence of routes with pairwise-distinct composite keys,
all fresh for the starting record, flattens to their rows (in some order)
followed by the starting record's rows. -/
theorem flatten_aggregate_perm (entries : List (IngressKey × IngressDetails)) :
    ∀ (m : IngressMap),
      (∀ e ∈ entries, lookupLeaf m e.1 = none) →
      (entries.map Prod.fst).Nodup →
      (flatten_ingress_data (aggregateIngress entries m)).Perm
        (entries.map (fun e => ingressRowOf e.1 e.2) ++ flatten_ingress_data m) := by
  induction entries with
  | nil =>
    intro m _ _
    simp only [aggregateIngress, List.foldl_nil, List.map_nil, List.nil_append]
    exact List.Perm.refl _
  | cons e rest ih =>
    intro m hfresh hnodup
    have hke : lookupLeaf m e.1 = none := hfresh e (List.mem_cons_self e rest)
    simp only [List.map_cons, List.nodup_cons] at hnodup
    obtain ⟨hnotin, hnodup2⟩ := hnodup
    have hfresh2 : ∀ e2 ∈ rest, lookupLeaf (insertIngressLeaf m e.1 e.2) e2.1 = none := by
      intro e2 he2
      rw [lookupLeaf_insertIngressLeaf]
      have hne : e2.1 ≠ e.1 := fun hq => hnotin (hq ▸ List.mem_map_of_mem Prod.fst he2)
      rw [if_neg hne]
      exact hfresh e2 (List.mem_cons_of_mem e he2)
    have hmain := ih (insertIngressLeaf m e.1 e.2) hfresh2 hnodup2
    have hins := flatten_insert_fresh m e.1 e.2 hke
    exact (hmain.trans ((hins.append_left _).trans List.perm_middle))

/-- Folding insertions over a concatenation is sequential aggregation. -/
theorem aggregateIngress_append (l1 l2 : List (IngressKey × IngressDetails))
    (m : IngressMap) :
    aggregateIngress (l1 ++ l2) m = aggregateIngress l2 (aggregateIngress l1 m) :=
  List.foldl_append _ _ _ _

/-- The counter-threaded fold of `list_ingresses` is aggregation of the
enumerated details. -/
theorem foldl_insert_enumFrom (nspace iname : String) (D : List IngressDetails) :
    ∀ (m : IngressMap) (cnt : Nat),
      D.foldl (fun (acc : IngressMap × Nat) det =>
        (insertIngressLeaf acc.1 ⟨PROJECT_ID, CLUSTER_NAME, nspace, iname, acc.2⟩ det,
         acc.2 + 1)) (m, cnt) =
      (aggregateIngress ((List.enumFrom cnt D).map (fun jd =>
        ((⟨PROJECT_ID, CLUSTER_NAME, nspace, iname, jd.1⟩ : IngressKey), jd.2))) m,
       cnt + D.length) := by
  induction D with
  | nil =>
    intro m cnt
    simp [aggregateIngress]
  | cons d rest ih =>
    intro m cnt
    rw [List.foldl_cons, ih, List.enumFrom_cons, List.map_cons]
    refine Prod.ext ?_ ?_
    · rfl
    · simp
      omega

/-- The body of the per-ingress loop equals aggregation of that ingress's
entries. -/
theorem processIngress_eq (nspace : String) (m : IngressMap) (ing : Ingress) :
    processIngress nspace m ing = aggregateIngress (ingressEntries nspace ing) m := by
  simp only [processIngress]
  have hfun : (fun (acc : IngressMap × Nat) rule =>
      (pyOrList rule.paths).foldl (fun (acc2 : IngressMap × Nat) path =>
        (insertIngressLeaf acc2.1
          ⟨PROJECT_ID, CLUSTER_NAME, nspace, ing.name, acc2.2⟩
          (ingressPathDetails (ingressClassOf ing) rule path), acc2.2 + 1)) acc) =
      (fun (acc : IngressMap × Nat) rule =>
        ((pyOrList rule.paths).map (ingressPathDetails (ingressClassOf ing) rule)).foldl
          (fun (acc2 : IngressMap × Nat) det =>
            (insertIngressLeaf acc2.1
              ⟨PROJECT_ID, CLUSTER_NAME, nspace, ing.name, acc2.2⟩ det,
             acc2.2 + 1)) acc) := by
    funext acc rule
    rw [List.foldl_map]
  rw [hfun, ← foldl_flatMap, ← ingressDetailsList, foldl_insert_enumFrom,
    ingressEntries, List.enum_eq_enumFrom]

/-- The per-namespace ingress loop equals aggregation of the namespace's
entries. -/
theorem foldl_processIngress_eq (nspace : String) (ings : List Ingress) :
    ∀ m, ings.foldl (processIngress nspace) m =
      aggregateIngress (namespaceEntries nspace ings) m := by
  induction ings with
  | nil => intro m; rfl
  | cons ing rest ih =>
    intro m
    rw [List.foldl_cons, ih, processIngress_eq,
      show namespaceEntries nspace (ing :: rest) =
        ingressEntries nspace ing ++ namespaceEntries nspace rest from
        List.flatMap_cons _ _ _,
      aggregateIngress_append]

/-- On an all-successful environment the walk of `list_ingresses` succeeds
and aggregates every traversed entry. -/
theorem listIngressesLoop_ok (nss : List (String × List Ingress)) :
    ∀ m, listIngressesLoop m (okIngressEnv nss) =
      .ok (aggregateIngress (allIngressEntries nss) m) := by
  induction nss with
  | nil => intro m; rfl
  | cons p rest ih =>
    intro m
    obtain ⟨nm, ings⟩ := p
    show listIngressesLoop m (⟨nm, Except.ok ings⟩ :: okIngressEnv rest) = _
    simp only [listIngressesLoop]
    by_cases hg : ings.isEmpty = true
    · rw [if_pos hg, ih]
      obtain rfl : ings = [] := List.isEmpty_iff.mp hg
      rfl
    · rw [if_neg hg, ih, foldl_processIngress_eq, ← aggregateIngress_append]
      rfl

/-- `list_ingresses` on an all-successful environment. -/
theorem list_ingresses_ok (nss : List (String × List Ingress)) :
    list_ingresses (okIngressEnv nss) =
      .ok (aggregateIngress (allIngressEntries nss) [], ingressHeaders) := by
  unfold list_ingresses
  rw [listIngressesLoop_ok]

/-- The composite keys one Ingress object produces: `rule_count` runs
through `0, 1, 2, …` in traversal order. -/
theorem ingressEntries_keys (nspace : String) (ing : Ingress) :
    (ingressEntries nspace ing).map Prod.fst =
      (List.range (ingressDetailsList ing).length).map
        (fun j => (⟨PROJECT_ID, CLUSTER_NAME, nspace, ing.name, j⟩ : IngressKey)) := by
  rw [ingressEntries, List.map_map]
  rw [show ((Prod.fst ∘ fun jd : Nat × IngressDetails =>
      ((⟨PROJECT_ID, CLUSTER_NAME, nspace, ing.name, jd.1⟩ : IngressKey), jd.2))) =
      ((fun j => (⟨PROJECT_ID, CLUSTER_NAME, nspace, ing.name, j⟩ : IngressKey)) ∘ Prod.fst)
      from rfl]
  rw [← List.map_map, List.enum_map_fst]

/-- Within one Ingress object the composite keys are pairwise distinct. -/
theorem ingressEntries_keys_nodup (nspace : String) (ing : Ingress) :
    ((ingressEntries nspace ing).map Prod.fst).Nodup := by
  rw [ingressEntries_keys]
  refine List.Nodup.map ?_ (List.nodup_range _)
  intro a b h
  exact congrArg IngressKey.ruleIndex h

/-- Every key produced for an Ingress carries its namespace and name. -/
theorem mem_ingressEntries_key (nspace : String) (ing : Ingress) (k : IngressKey)
    (h : k ∈ (ingressEntries nspace ing).map Prod.fst) :
    k.namespaceName = nspace ∧ k.resource = ing.name := by
  rw [ingressEntries_keys] at h
  obtain ⟨j, hj, rfl⟩ := List.mem_map.mp h
  exact ⟨rfl, rfl⟩

/-- With distinct ingress names a namespace's composite keys are distinct. -/
theorem namespaceEntries_keys_nodup (nspace : String) (ings : List Ingress)
    (h : (ings.map Ingress.name).Nodup) :
    ((namespaceEntries nspace ings).map Prod.fst).Nodup := by
  rw [namespaceEntries, List.map_flatMap]
  refine List.nodup_flatMap.mpr ⟨fun ing _ => ingressEntries_keys_nodup nspace ing, ?_⟩
  have hp : List.Pairwise (fun a b : Ingress => a.name ≠ b.name) ings :=
    List.pairwise_map.mp h
  refine hp.imp ?_
  intro a b hab k hka hkb
  exact hab (((mem_ingressEntries_key nspace a k hka).2.symm).trans
    (mem_ingressEntries_key nspace b k hkb).2)

/-- Every key produced within one namespace carries its name. -/
theorem mem_namespaceEntries_key (nspace : String) (ings : List Ingress) (k : IngressKey)
    (h : k ∈ (namespaceEntries nspace ings).map Prod.fst) :
    k.namespaceName = nspace := by
  rw [namespaceEntries, List.map_flatMap] at h
  obtain ⟨ing, _, hk⟩ := List.mem_flatMap.mp h
  exact (mem_ingressEntries_key nspace ing k hk).1

/-- With distinct namespace names and per-namespace distinct ingress names,
all composite keys of one run are pairwise distinct. -/
theorem allIngressEntries_keys_nodup (nss : List (String × List Ingress))
    (h1 : (nss.map Prod.fst).Nodup)
    (h2 : ∀ p ∈ nss, (p.2.map Ingress.name).Nodup) :
    ((allIngressEntries nss).map Prod.fst).Nodup := by
  rw [allIngressEntries, List.map_flatMap]
  refine List.nodup_flatMap.mpr
    ⟨fun p hp => namespaceEntries_keys_nodup p.1 p.2 (h2 p hp), ?_⟩
  have hp : List.Pairwise (fun a b : String × List Ingress => a.1 ≠ b.1) nss :=
    List.pairwise_map.mp h1
  refine hp.imp ?_
  intro a b hab k hka hkb
  exact hab ((mem_namespaceEntries_key a.1 a.2 k hka).symm.trans
    (mem_namespaceEntries_key b.1 b.2 k hkb))

/-- Claim C6: on any run of `list_ingresses` over namespaces with distinct
names whose ingress names are distinct within each namespace (as the
Kubernetes API guarantees), the `rule_count` values assigned within each
Ingress object run `0, 1, 2, …` in traversal order — the flattened record
is a permutation of the expected rows, whose indices are exactly
`List.range` over each ingress's path count — and consequently every leaf
of the nested mapping has a unique composite key: no two rows collide. -/
theorem c6_rule_indices_zero_based_and_leaves_unique (nss : List (String × List Ingress))
    (h1 : (nss.map Prod.fst).Nodup)
    (h2 : ∀ p ∈ nss, (p.2.map Ingress.name).Nodup) :
    ∃ m, list_ingresses (okIngressEnv nss) = .ok (m, ingressHeaders) ∧
      (flatten_ingress_data m).Perm (expectedIngressRows nss) ∧
      ((flatten_ingress_data m).map ingressRowKey).Nodup := by
  have hperm0 := flatten_aggregate_perm (allIngressEntries nss) []
    (fun e _ => lookupLeaf_nil e.1) (allIngressEntries_keys_nodup nss h1 h2)
  rw [show flatten_ingress_data ([] : IngressMap) = [] from rfl, List.append_nil] at hperm0
  refine ⟨aggregateIngress (allIngressEntries nss) [], list_ingresses_ok nss, hperm0, ?_⟩
  have hmap := hperm0.map ingressRowKey
  rw [List.map_map] at hmap
  rw [show ((allIngressEntries nss).map
      (ingressRowKey ∘ fun e => ingressRowOf e.1 e.2)) =
      (allIngressEntries nss).map Prod.fst from rfl] at hmap
  exact (hmap.nodup_iff).mpr (allIngressEntries_keys_nodup nss h1 h2)

/-- Witness for C6: a concrete two-namespace run with three ingress
objects and seven routed paths. -/
theorem c6_witness :
    (ingNssExample.map Prod.fst).Nodup ∧
    (∀ p ∈ ingNssExample, (p.2.map Ingress.name).Nodup) ∧
    (∃ m, list_ingresses (okIngressEnv ingNssExample) = .ok (m, ingressHeaders) ∧
      (flatten_ingress_data m).Perm (expectedIngressRows ingNssExample) ∧
      ((flatten_ingress_data m).map ingressRowKey).Nodup) :=
  ⟨by decide, by decide,
    c6_rule_indices_zero_based_and_leaves_unique ingNssExample (by decide) (by decide)⟩
